import Mathlib

/-!
Verification of the modification-report pipeline (`create_report.py`).

The script reads a table of modification records with columns
Mod_No, Area, Plant, Temporary Mod, Status, Project, and then

  1. `project_cleanup` (lines 100-126): a chain of `DataFrame.replace`
     calls, each applied to EVERY column, turning matching cells into
     `np.nan`; then rows whose Project equals Mod_No are dropped;
  2. line 137: rows with Status equal to the literal "Cancelled" are dropped;
  3. line 138: `replace(r'Services*(.+)', "Services", regex=True)`, again on
     every column (a string replacement, hence Python `re.sub` semantics);
  4. line 139: `str.strip()` on the Project column;
  5. lines 142-147: `Mod_No.str.split("-", expand=True)`; piece 0 becomes
     Mod_Yr and piece 1 becomes Mod_Id, Mod_No is dropped;
  6. aggregation: `value_counts` tables, the year x area matrix `cdf`
     (lines 160-172), the percentage normalisation (lines 180-184), and the
     largest-project selection (lines 195-205).

Cells are modelled as `Option String`: `none` is pandas `NaN`/`None`.
Pandas `replace` with a non-string replacement value substitutes the whole
cell when `re.search` succeeds; the regexes below are transcribed with
Python `re` semantics: `.` does not match a newline, `^` anchors at
position 0 (no MULTILINE), `$` matches at the end or just before one
trailing newline, `\W` is a non-word character (not alphanumeric, not
underscore; ASCII data).  Raised exceptions (ValueError on a mismatched
column assignment, KeyError on a missing column, ZeroDivisionError) are
modelled as `none` results.  Where pandas leaves an order unspecified
(`value_counts` ties), the model fixes one; no theorem below depends on it.
-/

/-- Python `\s` (ASCII range): the whitespace characters recognised by
`str.strip()` and the `^\s*$` pattern. -/
def isPySpace (c : Char) : Bool :=
  c == ' ' || c == '\t' || c == '\n' || c == '\r' || c == '\x0c' || c == '\x0b'

/-- Python `\w` on ASCII data: letters, digits and underscore. -/
def isWordChar (c : Char) : Bool := c.isAlphanum || c == '_'

/-- A character admitted by the class `[a-zA-Z\W]` of `na_regex`
(line 116): a letter, or any non-word character. -/
def naClassChar (c : Char) : Bool := c.isAlpha || !(isWordChar c)

/-- Python `$` also matches just before one trailing newline; for a
whole-cell pattern `^C*$` this amounts to ignoring a final newline. -/
def chopNL (l : List Char) : List Char :=
  if l.getLast? == some '\n' then l.dropLast else l

/-- The lookahead `(n|N).*(a|A)` anchored at the n/N: is there an `a`/`A`
further on, with no newline in between (`.` does not cross newlines)? -/
def hasAAfter : List Char → Bool
  | [] => false
  | c :: cs =>
    if c == 'a' || c == 'A' then true
    else if c == '\n' then false
    else hasAAfter cs

/-- `re.search` of `na_regex = (?=((n|N).*(a|A)))(?=^[a-zA-Z\W]{0,4}$)`
(line 116).  Both branches are lookaheads; `^` restricts any match to
position 0, so the search succeeds iff the first character is `n`/`N`,
an `a`/`A` follows it on the same line, and the whole cell (up to one
trailing newline) has at most 4 characters, all letters or non-word. -/
def naRegexSearch (s : String) : Bool :=
  match s.data with
  | [] => false
  | c :: cs =>
    (c == 'n' || c == 'N') && hasAAfter cs &&
      (decide ((chopNL (c :: cs)).length ≤ 4) && (chopNL (c :: cs)).all naClassChar)

/-- The exact-match replacement list of line 119. -/
def placeholders : List String := ["TBC", "various", "TBA", "Multiple"]

/-- `re.search` of `(^\s*$)` (line 120): the cell is entirely whitespace
(possibly empty). -/
def blankMatch (s : String) : Bool := s.data.all isPySpace

/-- `re.search` of `(^0*$)` (line 121), with the trailing-newline rule. -/
def zerosOnly (s : String) : Bool := (chopNL s.data).all (· == '0')

/-- `re.search` of `(^-*$)` (line 122), with the trailing-newline rule. -/
def dashesOnly (s : String) : Bool := (chopNL s.data).all (· == '-')

/-- Exactly one non-word character. -/
def nwOne : List Char → Bool
  | [c] => !isWordChar c
  | _ => false

/-- `re.search` of `(^\W$)` (line 123): one non-word character, allowing
`$` to sit before one trailing newline. -/
def singleNW (s : String) : Bool := nwOne s.data || nwOne (chopNL s.data)

/-- One cell through the replacement chain of `project_cleanup`
(lines 118-123).  A `NaN` cell stays `NaN`; a matching string cell becomes
`NaN`; all replacements target `np.nan`, so their order cannot matter. -/
def cleanCell : Option String → Option String
  | none => none
  | some s =>
    if naRegexSearch s then none
    else if placeholders.contains s then none
    else if blankMatch s then none
    else if zerosOnly s then none
    else if dashesOnly s then none
    else if singleNW s then none
    else some s

/-- The union of the six replacement patterns: exactly the cells that
`cleanCell` sends to `NaN`. -/
def cleanMatch (s : String) : Bool :=
  naRegexSearch s || placeholders.contains s || blankMatch s ||
    zerosOnly s || dashesOnly s || singleNW s

/-- A raw row of `dataset.csv` after `read_csv` and the column rename:
Mod_No, Area, Plant, Temporary Mod, Status, Project. -/
structure Row where
  mod_no : Option String
  area : Option String
  plant : Option String
  temp : Option String
  status : Option String
  project : Option String
deriving DecidableEq

/-- `dataframe.replace(...)` acts column-wise on the whole frame:
every field goes through `cleanCell`. -/
def cleanRow (r : Row) : Row :=
  ⟨cleanCell r.mod_no, cleanCell r.area, cleanCell r.plant,
    cleanCell r.temp, cleanCell r.status, cleanCell r.project⟩

/-- `df2[df2.Project != df2.Mod_No]` (line 125): a row is dropped exactly
when both cells are non-null and equal (`NaN != x` is True in pandas). -/
def keepRow (r : Row) : Bool :=
  match r.project, r.mod_no with
  | some p, some m => p != m
  | _, _ => true

/-- `project_cleanup` (lines 100-126): the replacement chain on every
column, then the self-referential row filter. -/
def project_cleanup (rows : List Row) : List Row :=
  (rows.map cleanRow).filter keepRow

/-- Guard of the skip state for the `Services*(.+)` match: after
`Service` (and greedy `s*`) at least one non-newline character must
remain for `.+`. -/
def svcHeadOk : Option Char → Bool
  | some c => c != '\n'
  | none => false

/-- `re.sub(r'Services*(.+)', "Services", s)` (line 138), one character at
a time.  A match starts wherever the text reads `Service` with a further
non-newline character on the same line; greedy `s*(.+)` then consumes to
the end of the line, so the scanner emits `Services` and drops the rest of
the line (`true` = skipping until a newline). -/
def svcAux : Bool → List Char → List Char
  | _, [] => []
  | true, c :: cs => if c == '\n' then c :: svcAux false cs else svcAux true cs
  | false, c :: cs =>
    if (c :: cs).take 7 == "Service".data && svcHeadOk ((c :: cs).drop 7).head?
    then "Services".data ++ svcAux true cs
    else c :: svcAux false cs

/-- `re.sub` of the Services pattern over one string cell. -/
def servicesStr (s : String) : String := ⟨svcAux false s.data⟩

/-- Line 138 applies the Services replacement to every column. -/
def servicesRow (r : Row) : Row :=
  ⟨r.mod_no.map servicesStr, r.area.map servicesStr, r.plant.map servicesStr,
    r.temp.map servicesStr, r.status.map servicesStr, r.project.map servicesStr⟩

/-- Python `str.strip()`: drop leading and trailing whitespace. -/
def pyStrip (s : String) : String :=
  ⟨((s.data.dropWhile isPySpace).reverse.dropWhile isPySpace).reverse⟩

/-- Line 139: `df['Project'] = df['Project'].str.strip()` (Project only). -/
def stripRow (r : Row) : Row :=
  ⟨r.mod_no, r.area, r.plant, r.temp, r.status, r.project.map pyStrip⟩

/-- Python `str.split("-")` (no maxsplit): split at EVERY dash. -/
def splitDash : List Char → List (List Char)
  | [] => [[]]
  | c :: cs =>
    if c == '-' then [] :: splitDash cs
    else
      match splitDash cs with
      | [] => [[c]]
      | p :: ps => (c :: p) :: ps

/-- `new[0]` (line 145): the piece before the first dash (the whole string
if there is none). -/
def parseYr (s : String) : String := ⟨(splitDash s.data).headD []⟩

/-- `new[1]` (line 146): the piece between the first and second dash;
`None` when the code has no dash. -/
def parseId (s : String) : Option String :=
  ((splitDash s.data)[1]?).map (⟨·⟩)

/-- A record after the Mod_No split (lines 142-147): Mod_Yr and Mod_Id
replace Mod_No.  `str.split` of a `NaN` cell leaves `NaN` in both pieces. -/
structure MRec where
  mod_yr : Option String
  mod_id : Option String
  area : Option String
  plant : Option String
  temp : Option String
  status : Option String
  project : Option String
deriving DecidableEq

/-- Lines 142-147 for one row. -/
def splitRow (r : Row) : MRec :=
  ⟨r.mod_no.map parseYr, r.mod_no.bind parseId,
    r.area, r.plant, r.temp, r.status, r.project⟩

/-- The whole normalisation pipeline, in source order (lines 136-147):
`project_cleanup`, the Status filter, the Services replacement, the
Project strip, the Mod_No split. -/
def pipeline (rows : List Row) : List MRec :=
  ((((project_cleanup rows).filter
      (fun r => r.status != some "Cancelled")).map servicesRow).map stripRow).map
    splitRow

/-! ## Aggregation (lines 150-205) -/

/-- Code-point lexicographic comparison of strings, as Python compares
them (used by `sort_index()`). -/
def lexLt : List Char → List Char → Bool
  | [], [] => false
  | [], _ :: _ => true
  | _ :: _, [] => false
  | a :: as, b :: bs => if a < b then true else if b < a then false else lexLt as bs

/-- Insert while keeping counts in descending order. -/
def insertDesc (p : String × Nat) : List (String × Nat) → List (String × Nat)
  | [] => [p]
  | q :: qs => if q.2 ≤ p.2 then p :: q :: qs else q :: insertDesc p qs

/-- Sort a count table by count, descending (`value_counts` sorts so;
its order among equal counts is unspecified in pandas, and no theorem
below depends on the order this model picks). -/
def sortDesc : List (String × Nat) → List (String × Nat)
  | [] => []
  | p :: ps => insertDesc p (sortDesc ps)

/-- `DataFrame.value_counts(column)`: occurrences of each non-null value,
sorted by count descending.  Null cells are dropped by pandas before
counting (callers pass the list of non-null cell values). -/
def valueCounts (l : List String) : List (String × Nat) :=
  sortDesc (l.dedup.map (fun k => (k, l.count k)))

/-- Total of a count table (`Series.sum()`). -/
def sumCounts (l : List (String × Nat)) : Nat := (l.map (fun p => p.2)).sum

/-- Insert while keeping keys in ascending code-point order. -/
def insertAsc (p : String × Nat) : List (String × Nat) → List (String × Nat)
  | [] => [p]
  | q :: qs => if lexLt q.1.data p.1.data then q :: insertAsc p qs else p :: q :: qs

/-- `Series.sort_index()`: sort a count table by key, ascending. -/
def sortAsc : List (String × Nat) → List (String × Nat)
  | [] => []
  | p :: ps => insertAsc p (sortAsc ps)

/-- The non-null Mod_Yr cells of a record set. -/
def yearsOf (recs : List MRec) : List String := recs.filterMap (fun r => r.mod_yr)

/-- `df.value_counts('Mod_Yr')` (line 152). -/
def perYear (recs : List MRec) : List (String × Nat) := valueCounts (yearsOf recs)

/-- `df.value_counts('Area')` (line 155). -/
def perArea (recs : List MRec) : List (String × Nat) :=
  valueCounts (recs.filterMap (fun r => r.area))

/-- `df.value_counts('Project')` (line 195). -/
def perProject (recs : List MRec) : List (String × Nat) :=
  valueCounts (recs.filterMap (fun r => r.project))

/-- `dfl.value_counts('Mod_Yr').sort_index().tolist()` (line 164): per-year
counts of one area, listed in ascending year order. -/
def areaYearCounts (recs : List MRec) (a : String) : List Nat :=
  (sortAsc (valueCounts
    ((recs.filter (fun r => r.area == some a)).filterMap (fun r => r.mod_yr)))).map
    (fun p => p.2)

/-- The year x area matrix after `reindex(columns=column_titles)`
(line 172): row keys in `value_counts('Mod_Yr')` order, and the three
fixed columns; a column is `none`-valued where `reindex` introduced `NaN`
(an area with no records at all). -/
structure Cdf where
  years : List String
  meth : List (Option Nat)
  cyan : List (Option Nat)
  mm8 : List (Option Nat)
deriving DecidableEq

/-- `PLOT_SERVICES` (line 73). -/
def plotServicesFlag : Bool := false

/-- The loop of lines 161-168: for each area key of `counts.index` (other
than Services while `PLOT_SERVICES` is false), assign that area's
year-ascending count list positionally as a column; pandas raises
`ValueError` (modelled `none`) when the list length differs from the
number of rows. -/
def buildCols (recs : List MRec) (n : Nat) : List String → Option (List (String × List Nat))
  | [] => some []
  | a :: rest =>
    if (a != "Services" && !plotServicesFlag) || plotServicesFlag then
      if (areaYearCounts recs a).length == n then
        (buildCols recs n rest).map (fun cs => (a, areaYearCounts recs a) :: cs)
      else none
    else buildCols recs n rest

/-- One column of the `reindex` of line 172: keep an assigned column,
fill a missing area with `NaN`. -/
def reCol (cols : List (String × List Nat)) (a : String) (n : Nat) : List (Option Nat) :=
  match cols.lookup a with
  | some col => col.map some
  | none => List.replicate n none

/-- Lines 160-172: the counting dataframe `cdf` — rows from
`value_counts('Mod_Yr').index`, columns assigned per area, then reindexed
to `column_titles = ["Methacrylates","Cyanides","MM8"]`. -/
def buildCdf (recs : List MRec) : Option Cdf :=
  (buildCols recs ((perYear recs).map (fun p => p.1)).length
      ((perArea recs).map (fun p => p.1))).map
    (fun cols =>
      ⟨(perYear recs).map (fun p => p.1),
        reCol cols "Methacrylates" ((perYear recs).map (fun p => p.1)).length,
        reCol cols "Cyanides" ((perYear recs).map (fun p => p.1)).length,
        reCol cols "MM8" ((perYear recs).map (fun p => p.1)).length⟩)

/-- Cell of the matrix at a year row and one of the three fixed areas
(`none` when the year is not a row key). -/
def cdfCell (m : Cdf) (yr a : String) : Option (Option Nat) :=
  (m.years.findIdx? (fun y => y == yr)).bind
    (fun i => (if a == "Methacrylates" then m.meth
               else if a == "Cyanides" then m.cyan else m.mm8)[i]?)

/-- Line 180: `totals = [i+j+k for i,j,k in zip(cdf['MM8'],
cdf['Methacrylates'], cdf['Cyanides'])]`; `NaN` propagates through `+`. -/
def totals3 (m8 me cy : List (Option Nat)) : List (Option Nat) :=
  (m8.zip (me.zip cy)).map
    (fun p =>
      match p.1, p.2.1, p.2.2 with
      | some i, some j, some k => some (i + j + k)
      | _, _, _ => none)

/-- The totals of line 180 for a built matrix. -/
def totalsOf (m : Cdf) : List (Option Nat) := totals3 m.mm8 m.meth m.cyan

/-- Evaluate a list of fallible computations; any failure aborts
(Python list comprehension with an exception). -/
def optMapList (f : α → Option β) : List α → Option (List β)
  | [] => some []
  | x :: xs =>
    match f x, optMapList f xs with
    | some y, some ys => some (y :: ys)
    | _, _ => none

/-- `i / j * 100` for one cell (line 183): `NaN` in cell or total gives
`NaN`; an integer total of zero raises `ZeroDivisionError` (the outer
`none`). -/
def pcCell : Option Nat → Option Nat → Option (Option ℚ)
  | some i, some j => if j == 0 then none else some (some ((i : ℚ) / (j : ℚ) * 100))
  | none, some j => if j == 0 then none else some none
  | _, none => some none

/-- Divide one column cell-wise by the totals (line 183). -/
def divCol (col tot : List (Option Nat)) : Option (List (Option ℚ)) :=
  optMapList (fun p => pcCell p.1 p.2) (col.zip tot)

/-- A column that the loop of lines 181-183 leaves untouched, viewed with
rational cells. -/
def colQ (col : List (Option Nat)) : List (Option ℚ) :=
  col.map (fun c => c.map (fun n => (n : ℚ)))

/-- The three column labels surviving the reindex of line 172. -/
def knownCol (a : String) : Bool :=
  a == "Methacrylates" || a == "Cyanides" || a == "MM8"

/-- The matrix after the percentage loop, with rational cells. -/
structure CdfQ where
  years : List String
  meth : List (Option ℚ)
  cyan : List (Option ℚ)
  mm8 : List (Option ℚ)
deriving DecidableEq

/-- Lines 181-184: for every non-Services area key, replace its column by
`cell / total * 100`.  An area key that is not one of the three reindexed
columns raises `KeyError`, and a zero integer total raises
`ZeroDivisionError` — both modelled as `none`. -/
def percentStep (m : Cdf) (areas : List String) : Option CdfQ :=
  if (areas.filter (fun a => a != "Services")).all knownCol then do
    let me ← if (areas.filter (fun a => a != "Services")).contains "Methacrylates"
             then divCol m.meth (totalsOf m) else some (colQ m.meth)
    let cy ← if (areas.filter (fun a => a != "Services")).contains "Cyanides"
             then divCol m.cyan (totalsOf m) else some (colQ m.cyan)
    let m8 ← if (areas.filter (fun a => a != "Services")).contains "MM8"
             then divCol m.mm8 (totalsOf m) else some (colQ m.mm8)
    some ⟨m.years, me, cy, m8⟩
  else none

/-- `Series.idxmax` keeps the first key attaining the maximum. -/
def idxmaxAux : String × Nat → List (String × Nat) → String × Nat
  | best, [] => best
  | best, p :: ps => if best.2 < p.2 then idxmaxAux p ps else idxmaxAux best ps

/-- `Series.idxmax` (line 204); on an empty series pandas raises
`ValueError`, modelled `none`. -/
def idxmax : List (String × Nat) → Option String
  | [] => none
  | p :: ps => some (idxmaxAux p ps).1

/-- `PROJECT_THRESHOLD` (line 74). -/
def PROJECT_THRESHOLD : Nat := 5

/-- Lines 195-205: `dfp = df.value_counts('Project')`,
`dfp = dfp[dfp > threshold]`, `dfp.idxmax()`. -/
def largestProject (recs : List MRec) (t : Nat) : Option String :=
  idxmax ((perProject recs).filter (fun p => t < p.2))

/-- Number of normalized records with a given year and area. -/
def countYearArea (recs : List MRec) (y a : String) : Nat :=
  (recs.filter (fun r => r.mod_yr == some y && r.area == some a)).length

/-! ## Concrete inputs used by counterexamples and witnesses -/

/-- A raw row with every cell present. -/
def row6 (m ar pl tp st pr : String) : Row :=
  ⟨some m, some ar, some pl, some tp, some st, some pr⟩

/-- One record whose project value is `una`. -/
def ex1 : List Row := [row6 "2019-0001" "Cyanides" "CYN1" "No" "Active" "una"]

/-- Three active Cyanides records: one in 2019, two in 2020. -/
def ex2 : List Row :=
  [row6 "2019-0001" "Cyanides" "CYN1" "No" "Active" "5228285",
   row6 "2020-0001" "Cyanides" "CYN1" "No" "Active" "5228286",
   row6 "2020-0002" "Cyanides" "CYN2" "No" "Active" "5228287"]

/-- A 2019 Cyanides record and a 2020 record that normalizes into the
Services area, so 2020 has zero records over the three fixed areas. -/
def ex3 : List Row :=
  [row6 "2019-0001" "Cyanides" "CYN1" "No" "Active" "5228285",
   row6 "2020-0001" "Services - 3rd Party Equipment" "SRV1" "No" "Active" "5228286"]

/-- One record whose project is the placeholder `TBC`. -/
def ex4 : List Row := [row6 "2019-0001" "Cyanides" "CYN1" "No" "Active" "TBC"]

/-- One record whose project is a whitespace-padded placeholder. -/
def ex5 : List Row := [row6 "2019-0001" "Cyanides" "CYN1" "No" "Active" " TBC "]

/-- An active record and a cancelled record. -/
def ex8 : List Row :=
  [row6 "2019-0001" "Cyanides" "CYN1" "No" "Active" "5228285",
   row6 "2019-0002" "Cyanides" "CYN1" "No" "Cancelled" "5228285"]

/-- One active record of a one-modification project. -/
def ex10 : List Row := [row6 "2019-0001" "Cyanides" "CYN1" "No" "Active" "5228285"]

/-- A concrete successfully-built year x area matrix (the witness input for
the percentage-normalisation theorem). -/
def mEx : Cdf := ⟨["2020", "2019"], [some 1, some 1], [some 1, some 2], [some 2, some 1]⟩

/-! ## Helper lemmas -/

/-- `str.split("-")` of a dash-free string is that single piece. -/
lemma splitDash_no_dash {l : List Char} (h : '-' ∉ l) : splitDash l = [l] := by
  induction l with
  | nil => rfl
  | cons c cs ih =>
    have hc : (c == '-') = false :=
      beq_eq_false_iff_ne.mpr (fun e => h (e ▸ List.mem_cons_self c cs))
    have ih' := ih (fun hm => h (List.mem_cons_of_mem c hm))
    simp only [splitDash, hc, Bool.false_eq_true, if_false, ih']

/-- `str.split("-")` peels off a dash-free prefix at the first dash. -/
lemma splitDash_append {a : List Char} (r : List Char) (h : '-' ∉ a) :
    splitDash (a ++ '-' :: r) = a :: splitDash r := by
  induction a with
  | nil => simp [splitDash]
  | cons c a' ih =>
    have hc : (c == '-') = false :=
      beq_eq_false_iff_ne.mpr (fun e => h (e ▸ List.mem_cons_self c a'))
    have ih' := ih (fun hm => h (List.mem_cons_of_mem c hm))
    simp only [List.cons_append, splitDash, hc, Bool.false_eq_true, if_false,
      List.append_eq, ih']

/-- A string with exactly one dash splits into a dash-free prefix and a
dash-free suffix around it. -/
lemma count_one_decomp {l : List Char} (h : l.count '-' = 1) :
    ∃ a b, l = a ++ '-' :: b ∧ '-' ∉ a ∧ '-' ∉ b := by
  induction l with
  | nil => simp at h
  | cons c cs ih =>
    by_cases hc : c = '-'
    · subst hc
      have h1 := List.count_cons_self '-' cs
      have h0 : cs.count '-' = 0 := by omega
      exact ⟨[], cs, rfl, by simp, List.count_eq_zero.mp h0⟩
    · have h1 : cs.count '-' = 1 := by
        rwa [List.count_cons_of_ne (fun e => hc e.symm)] at h
      obtain ⟨a, b, hab, ha, hb⟩ := ih h1
      exact ⟨c :: a, b, by rw [hab]; rfl,
        fun hm => (List.mem_cons.mp hm).elim (fun e => hc e.symm) ha, hb⟩

lemma sumCounts_insertDesc (p : String × Nat) (l : List (String × Nat)) :
    sumCounts (insertDesc p l) = p.2 + sumCounts l := by
  induction l with
  | nil => rfl
  | cons q qs ih =>
    simp only [insertDesc]
    split
    · rfl
    · simp only [sumCounts, List.map_cons, List.sum_cons] at ih ⊢
      omega

lemma sumCounts_sortDesc (l : List (String × Nat)) : sumCounts (sortDesc l) = sumCounts l := by
  induction l with
  | nil => rfl
  | cons p ps ih =>
    simp only [sortDesc, sumCounts_insertDesc, ih]
    rfl

/-- The counts of a `value_counts` table add up to the number of counted
(non-null) cells. -/
lemma sumCounts_valueCounts (l : List String) : sumCounts (valueCounts l) = l.length := by
  rw [valueCounts, sumCounts_sortDesc]
  have h1 : sumCounts (l.dedup.map fun k => (k, l.count k)) =
      (l.dedup.map fun x => l.count x).sum := by
    simp only [sumCounts, List.map_map]
    rfl
  rw [h1, List.sum_map_count_dedup_eq_length]

lemma length_filterMap_eq (f : α → Option β) (l : List α) :
    (l.filterMap f).length = (l.filter (fun a => (f a).isSome)).length := by
  induction l with
  | nil => rfl
  | cons x xs ih =>
    cases hx : f x <;>
      simp [List.filterMap_cons, List.filter_cons, hx, ih]

/-- `idxmax` returns the running best or one of the scanned entries. -/
lemma idxmaxAux_mem (best : String × Nat) (l : List (String × Nat)) :
    idxmaxAux best l = best ∨ idxmaxAux best l ∈ l := by
  induction l generalizing best with
  | nil => left; rfl
  | cons p ps ih =>
    simp only [idxmaxAux]
    split
    · rcases ih p with h | h
      · right; rw [h]; exact List.mem_cons_self _ _
      · right; exact List.mem_cons_of_mem _ h
    · rcases ih best with h | h
      · left; exact h
      · right; exact List.mem_cons_of_mem _ h

/-- The Services substitution either leaves a string unchanged or leaves
`Services` as an infix of the result. -/
lemma svcAux_false_shape (l : List Char) :
    svcAux false l = l ∨ "Services".data <:+: svcAux false l := by
  induction l with
  | nil => left; rfl
  | cons c cs ih =>
    cases h : ((c :: cs).take 7 == "Service".data && svcHeadOk ((c :: cs).drop 7).head?) with
    | true =>
      right
      simp only [svcAux, h, if_true]
      exact ⟨[], svcAux true cs, by simp⟩
    | false =>
      simp only [svcAux, h, Bool.false_eq_true, if_false]
      rcases ih with h1 | h1
      · left; rw [h1]
      · right; exact List.infix_cons h1

/-- The Services substitution cannot manufacture the status literal
`Cancelled` out of a different string. -/
lemma servicesStr_ne_cancelled {s : String} (h : s ≠ "Cancelled") :
    servicesStr s ≠ "Cancelled" := by
  intro hc
  rcases svcAux_false_shape s.data with h1 | h1
  · apply h
    apply String.ext
    have := congrArg String.data hc
    simpa [servicesStr, h1] using this
  · rw [show svcAux false s.data = (servicesStr s).data from rfl, hc] at h1
    have hS : 'S' ∈ "Cancelled".data := h1.subset (by decide)
    exact absurd hS (by decide)

/-- A cell matching any of the six cleanup patterns is nulled by the
replacement chain. -/
lemma cleanCell_of_match {s : String} (h : cleanMatch s = true) : cleanCell (some s) = none := by
  simp only [cleanMatch, Bool.or_eq_true] at h
  unfold cleanCell
  rcases h with ((((h | h) | h) | h) | h) | h
  · simp [h]
  · have hm : s ∈ placeholders := by simpa using h
    simp [hm]
  · simp [h]
  · simp [h]
  · simp [h]
  · simp [h]

lemma chopNL_length (l : List Char) : (chopNL l).length ≤ l.length := by
  unfold chopNL
  split
  · exact (List.length_dropLast l) ▸ Nat.sub_le _ _
  · exact Nat.le_refl _

lemma chopNL_subset {l : List Char} {x : Char} (h : x ∈ chopNL l) : x ∈ l := by
  unfold chopNL at h
  split at h
  · exact (List.dropLast_sublist l).subset h
  · exact h

/-- Completeness of the `(n|N).*(a|A)` scan: an `a`/`A` at some position
with no earlier newline makes it succeed. -/
lemma hasAAfter_of_get (cs : List Char) (j : Fin cs.length)
    (hj : cs.get j = 'a' ∨ cs.get j = 'A')
    (hk : ∀ k : Fin cs.length, (k : ℕ) < (j : ℕ) → cs.get k ≠ '\n') :
    hasAAfter cs = true := by
  induction cs with
  | nil => exact absurd j.2 (by simp)
  | cons c cs' ih =>
    by_cases hca : (c == 'a' || c == 'A') = true
    · simp [hasAAfter, hca]
    · have hj0 : (j : ℕ) ≠ 0 := by
        intro h0
        have hgc : (c :: cs').get j = c := by
          cases j with
          | mk jv hv =>
            simp only at h0
            subst h0
            rfl
        rw [hgc] at hj
        rcases hj with h | h <;> simp [h] at hca
      have hcn : c ≠ '\n' := by
        have := hk ⟨0, by simp⟩ (Nat.pos_of_ne_zero hj0)
        simpa using this
      have hb1 : (c == 'a' || c == 'A') = false := by
        rwa [Bool.not_eq_true] at hca
      have hb2 : (c == '\n') = false := beq_eq_false_iff_ne.mpr hcn
      cases j with
      | mk jv hv =>
        cases jv with
        | zero => exact absurd rfl hj0
        | succ j' =>
          have hlt : j' < cs'.length := by simpa using hv
          have hj' : cs'.get ⟨j', hlt⟩ = 'a' ∨ cs'.get ⟨j', hlt⟩ = 'A' := by
            simpa using hj
          have hk' : ∀ k : Fin cs'.length, (k : ℕ) < j' → cs'.get k ≠ '\n' := by
            intro k hkj
            have := hk ⟨(k : ℕ) + 1, by simpa using Nat.succ_lt_succ k.2⟩
              (by simpa using Nat.succ_lt_succ hkj)
            simpa using this
          have hres := ih ⟨j', hlt⟩ hj' hk'
          simp [hasAAfter, hb1, hb2, hres]

/-- Soundness of the `(n|N).*(a|A)` scan: success exhibits an `a`/`A`. -/
lemma exists_get_of_hasAAfter (cs : List Char) (h : hasAAfter cs = true) :
    ∃ j : Fin cs.length, cs.get j = 'a' ∨ cs.get j = 'A' := by
  induction cs with
  | nil => simp [hasAAfter] at h
  | cons c cs' ih =>
    by_cases hca : (c == 'a' || c == 'A') = true
    · refine ⟨⟨0, by simp⟩, ?_⟩
      have hc2 : c = 'a' ∨ c = 'A' := by simpa using hca
      simpa using hc2
    · have hb1 : (c == 'a' || c == 'A') = false := by rwa [Bool.not_eq_true] at hca
      by_cases hcn : (c == '\n') = true
      · rw [hasAAfter, hb1, hcn] at h
        simp at h
      · have hb2 : (c == '\n') = false := by rwa [Bool.not_eq_true] at hcn
        rw [hasAAfter, hb1, hb2] at h
        simp only [Bool.false_eq_true, if_false] at h
        obtain ⟨j, hj⟩ := ih h
        exact ⟨⟨(j : ℕ) + 1, by simpa using Nat.succ_lt_succ j.2⟩, by simpa using hj⟩

/-- One cell-division step of the percentage loop with a nonzero total. -/
lemma divCol_cons_eq {S : Nat} (hSb : (S == 0) = false) (v : Nat)
    {col tot : List (Option Nat)} {out : List (Option ℚ)}
    (h : divCol col tot = some out) :
    divCol (some v :: col) (some S :: tot) =
      some (some ((v : ℚ) / (S : ℚ) * 100) :: out) := by
  unfold divCol at h ⊢
  rw [List.zip_cons_cons]
  simp only [pcCell] at h ⊢
  simp only [optMapList, hSb, Bool.false_eq_true, if_false, h]

/-- Dividing three fully-populated columns by their cell-wise totals
succeeds whenever no total is zero, and makes every row sum to 100. -/
lemma divCol_sum100 :
    ∀ (me cy m8 : List (Option Nat)),
      me.all Option.isSome = true → cy.all Option.isSome = true →
      m8.all Option.isSome = true →
      (∀ t ∈ totals3 m8 me cy, t ≠ some 0) →
      ∃ ome ocy om8,
        divCol me (totals3 m8 me cy) = some ome ∧
        divCol cy (totals3 m8 me cy) = some ocy ∧
        divCol m8 (totals3 m8 me cy) = some om8 ∧
        ∀ (i : Nat) (x y z : Option ℚ),
          ome[i]? = some x → ocy[i]? = some y → om8[i]? = some z →
          ∃ qx qy qz : ℚ, x = some qx ∧ y = some qy ∧ z = some qz ∧
            qx + qy + qz = 100 := by
  intro me
  induction me with
  | nil =>
    intro cy m8 _ _ _ _
    refine ⟨[], [], [], ?_, ?_, ?_, ?_⟩
    · simp [divCol, totals3, optMapList]
    · simp [divCol, totals3, optMapList]
    · simp [divCol, totals3, optMapList]
    · intro i x y z hx
      simp at hx
  | cons a me' ih =>
    intro cy m8 hme hcy hm8 htot
    cases cy with
    | nil =>
      refine ⟨[], [], [], ?_, ?_, ?_, ?_⟩
      · simp [divCol, totals3, optMapList]
      · simp [divCol, totals3, optMapList]
      · simp [divCol, totals3, optMapList]
      · intro i x y z hx
        simp at hx
    | cons b cy' =>
      cases m8 with
      | nil =>
        refine ⟨[], [], [], ?_, ?_, ?_, ?_⟩
        · simp [divCol, totals3, optMapList]
        · simp [divCol, totals3, optMapList]
        · simp [divCol, totals3, optMapList]
        · intro i x y z hx
          simp at hx
      | cons c m8' =>
        obtain ⟨a0, rfl⟩ : ∃ a0, a = some a0 := by
          cases a with
          | none => simp at hme
          | some v => exact ⟨v, rfl⟩
        obtain ⟨b0, rfl⟩ : ∃ b0, b = some b0 := by
          cases b with
          | none => simp at hcy
          | some v => exact ⟨v, rfl⟩
        obtain ⟨c0, rfl⟩ : ∃ c0, c = some c0 := by
          cases c with
          | none => simp at hm8
          | some v => exact ⟨v, rfl⟩
        have htot0 : totals3 (some c0 :: m8') (some a0 :: me') (some b0 :: cy') =
            some (c0 + a0 + b0) :: totals3 m8' me' cy' := rfl
        have hS : c0 + a0 + b0 ≠ 0 := by
          intro h0
          exact htot (some (c0 + a0 + b0)) (by rw [htot0]; simp) (by rw [h0])
        have hSb : ((c0 + a0 + b0) == 0) = false := by
          simpa using hS
        obtain ⟨ome', ocy', om8', e1, e2, e3, hidx⟩ :=
          ih cy' m8' (by simpa using hme) (by simpa using hcy) (by simpa using hm8)
            (fun t ht => htot t (by rw [htot0]; exact List.mem_cons_of_mem _ ht))
        have hcast : ((c0 + a0 + b0 : Nat) : ℚ) ≠ 0 := by
          exact_mod_cast hS
        refine ⟨some ((a0 : ℚ) / ((c0 + a0 + b0 : Nat) : ℚ) * 100) :: ome',
          some ((b0 : ℚ) / ((c0 + a0 + b0 : Nat) : ℚ) * 100) :: ocy',
          some ((c0 : ℚ) / ((c0 + a0 + b0 : Nat) : ℚ) * 100) :: om8', ?_, ?_, ?_, ?_⟩
        · rw [htot0]
          exact divCol_cons_eq hSb a0 e1
        · rw [htot0]
          exact divCol_cons_eq hSb b0 e2
        · rw [htot0]
          exact divCol_cons_eq hSb c0 e3
        · intro i x y z hx hy hz
          cases i with
          | zero =>
            simp only [List.getElem?_cons_zero, Option.some.injEq] at hx hy hz
            refine ⟨(a0 : ℚ) / ((c0 + a0 + b0 : Nat) : ℚ) * 100,
              (b0 : ℚ) / ((c0 + a0 + b0 : Nat) : ℚ) * 100,
              (c0 : ℚ) / ((c0 + a0 + b0 : Nat) : ℚ) * 100,
              hx.symm, hy.symm, hz.symm, ?_⟩
            have hT : ((c0 + a0 + b0 : Nat) : ℚ) = (a0 : ℚ) + (b0 : ℚ) + (c0 : ℚ) := by
              push_cast
              ring
            have hsum : (a0 : ℚ) / ((c0 + a0 + b0 : Nat) : ℚ) * 100 +
                (b0 : ℚ) / ((c0 + a0 + b0 : Nat) : ℚ) * 100 +
                (c0 : ℚ) / ((c0 + a0 + b0 : Nat) : ℚ) * 100 =
                ((a0 : ℚ) + (b0 : ℚ) + (c0 : ℚ)) / ((c0 + a0 + b0 : Nat) : ℚ) * 100 := by
              ring
            rw [hsum, ← hT, div_self hcast, one_mul]
          | succ i' =>
            simp only [List.getElem?_cons_succ] at hx hy hz
            exact hidx i' x y z hx hy hz

/-! ## Claim theorems -/

/-- C1 (counterexample): the project value `una` has (trimmed) length
3 ≤ 4 and contains `n` followed later by `a`, yet the normalizer does NOT
rewrite it to the N/A sentinel — the `na_regex` lookahead pair only
matches at position 0, so the value must BEGIN with `n`/`N`. -/
theorem C1_cex : (pipeline ex1).map (fun r => r.project) = [some "una"] := by decide

/-- C1 (amended): the length-and-letters heuristic nulls a project cell
exactly under the implemented conditions — the raw value starts with
`n`/`N`, an `a`/`A` occurs later on the same line, the value (up to one
trailing newline) has at most 4 characters, each a letter or a non-word
character (no digits, no underscore).  Conversely a value in which no
`n`/`N` ever precedes an `a`/`A` — in particular one with `a` only before
`n` — is never matched by this rule alone. -/
theorem C1_thm :
    (∀ (s : String) (c : Char) (cs : List Char),
        s.data = c :: cs → (c = 'n' ∨ c = 'N') →
        (∃ j : Fin cs.length, (cs.get j = 'a' ∨ cs.get j = 'A') ∧
          ∀ k : Fin cs.length, (k : ℕ) < (j : ℕ) → cs.get k ≠ '\n') →
        s.data.length ≤ 4 →
        (∀ x ∈ s.data, x.isAlpha = true ∨ isWordChar x = false) →
        cleanCell (some s) = none) ∧
    (∀ s : String,
        (∀ i j : Fin s.data.length, (i : ℕ) < (j : ℕ) →
          (s.data.get i = 'n' ∨ s.data.get i = 'N') →
          (s.data.get j = 'a' ∨ s.data.get j = 'A') → False) →
        naRegexSearch s = false) := by
  constructor
  · intro s c cs hdata hc hex hlen hclass
    obtain ⟨l⟩ := s
    simp only [] at hdata
    subst hdata
    have hna : naRegexSearch ⟨c :: cs⟩ = true := by
      obtain ⟨j, hj, hk⟩ := hex
      have h1 : (c == 'n' || c == 'N') = true := by
        rcases hc with h | h <;> simp [h]
      have h2 : hasAAfter cs = true := hasAAfter_of_get cs j hj hk
      have h3 : (chopNL (c :: cs)).length ≤ 4 :=
        Nat.le_trans (chopNL_length _) hlen
      have h4 : (chopNL (c :: cs)).all naClassChar = true := by
        rw [List.all_eq_true]
        intro x hx
        rcases hclass x (chopNL_subset hx) with h | h <;>
          simp [naClassChar, h]
      simp [naRegexSearch, h1, h2, h3, h4]
    simp [cleanCell, hna]
  · intro s hno
    obtain ⟨l⟩ := s
    cases l with
    | nil => rfl
    | cons c cs =>
      by_cases h : naRegexSearch ⟨c :: cs⟩ = true
      · exfalso
        simp only [naRegexSearch, Bool.and_eq_true] at h
        obtain ⟨⟨hc, hA⟩, _⟩ := h
        obtain ⟨j, hj⟩ := exists_get_of_hasAAfter cs hA
        apply hno ⟨0, by simp⟩ ⟨(j : ℕ) + 1, by simpa using Nat.succ_lt_succ j.2⟩
          (by simpa using Nat.succ_pos (j : ℕ))
        · have : c = 'n' ∨ c = 'N' := by simpa using hc
          simpa using this
        · simpa using hj
      · rwa [Bool.not_eq_true] at h

/-- C1 (witness): the rule fires on `na` and does not fire on `an`. -/
theorem C1_witness :
    cleanCell (some "na") = none ∧ naRegexSearch "an" = false := by
  constructor
  · exact C1_thm.1 "na" 'n' ['a'] rfl (Or.inl rfl)
      ⟨⟨0, by decide⟩, by decide, fun k hk => absurd hk (by simp)⟩
      (by decide) (by decide)
  · exact C1_thm.2 "an" (by decide)

/-- C2 (code bug, evaluated): on three active Cyanides records (one of
2019, two of 2020) the built year x area matrix stores 1 in the cell for
year 2020 and area Cyanides although 2 normalized records carry that year
and area — the per-area year-ascending count list is assigned positionally
onto rows ordered by overall year frequency. -/
theorem C2_thm :
    (buildCdf (pipeline ex2)).bind (fun m => cdfCell m "2020" "Cyanides") = some (some 1) ∧
    countYearArea (pipeline ex2) "2020" "Cyanides" = 2 := by decide

/-- C3 (counterexample): year 2020 appears in the per-year table of `ex3`
with zero records over the three fixed areas, and the pipeline does not
apply any policy — the matrix construction already fails (pandas
ValueError, modelled `none`) because the Cyanides year list is shorter
than the year axis. -/
theorem C3_cex :
    buildCdf (pipeline ex3) = none ∧
    countYearArea (pipeline ex3) "2020" "Cyanides" +
      countYearArea (pipeline ex3) "2020" "Methacrylates" +
      countYearArea (pipeline ex3) "2020" "MM8" = 0 ∧
    "2020" ∈ (perYear (pipeline ex3)).map (fun p => p.1) := by decide

/-- C3 (amended): when the matrix was built successfully with all three
fixed-area columns populated, only known area keys present, and no
cross-area row total equal to zero, the percentage step succeeds and the
three percentage cells of every row sum to exactly 100 (rationals model
the float arithmetic exactly here); a zero-total year instead makes the
pipeline fail before this point, as the counterexample shows. -/
theorem C3_thm (m : Cdf) (areas : List String)
    (hknown : ∀ a ∈ areas,
      a = "Services" ∨ a = "Methacrylates" ∨ a = "Cyanides" ∨ a = "MM8")
    (hme : "Methacrylates" ∈ areas) (hcy : "Cyanides" ∈ areas) (hm8 : "MM8" ∈ areas)
    (hsme : m.meth.all Option.isSome = true) (hscy : m.cyan.all Option.isSome = true)
    (hsm8 : m.mm8.all Option.isSome = true)
    (htot : ∀ t ∈ totalsOf m, t ≠ some 0) :
    ∃ mq : CdfQ, percentStep m areas = some mq ∧
      ∀ (i : Nat) (x y z : Option ℚ),
        mq.meth[i]? = some x → mq.cyan[i]? = some y → mq.mm8[i]? = some z →
        ∃ qx qy qz : ℚ, x = some qx ∧ y = some qy ∧ z = some qz ∧
          qx + qy + qz = 100 := by
  obtain ⟨ome, ocy, om8, e1, e2, e3, hidx⟩ :=
    divCol_sum100 m.meth m.cyan m.mm8 hsme hscy hsm8 htot
  refine ⟨⟨m.years, ome, ocy, om8⟩, ?_, hidx⟩
  have hall : ((areas.filter (fun a => a != "Services")).all knownCol) = true := by
    rw [List.all_eq_true]
    intro a ha
    have hmem := (List.mem_filter.mp ha).1
    have hne := (List.mem_filter.mp ha).2
    rcases hknown a hmem with h | h | h | h
    · rw [h] at hne
      simp at hne
    · simp [knownCol, h]
    · simp [knownCol, h]
    · simp [knownCol, h]
  have hc1 : (areas.filter (fun a => a != "Services")).contains "Methacrylates" = true := by
    exact List.elem_iff.mpr (List.mem_filter.mpr ⟨hme, by decide⟩)
  have hc2 : (areas.filter (fun a => a != "Services")).contains "Cyanides" = true := by
    exact List.elem_iff.mpr (List.mem_filter.mpr ⟨hcy, by decide⟩)
  have hc3 : (areas.filter (fun a => a != "Services")).contains "MM8" = true := by
    exact List.elem_iff.mpr (List.mem_filter.mpr ⟨hm8, by decide⟩)
  unfold percentStep
  rw [if_pos hall]
  simp only [hc1, hc2, hc3, if_true, totalsOf] at e1 e2 e3 ⊢
  rw [e1, e2, e3]
  rfl

/-- C3 (witness): the percentage step succeeds on a concrete
fully-populated matrix. -/
theorem C3_witness :
    (percentStep mEx ["Cyanides", "Methacrylates", "MM8"]).isSome = true := by
  obtain ⟨mq, h, _⟩ := C3_thm mEx ["Cyanides", "Methacrylates", "MM8"]
    (by decide) (by decide) (by decide) (by decide) (by decide) (by decide)
    (by decide) (by decide)
  rw [h]
  rfl

/-- C4 (counterexample): one surviving record whose project `TBC` was
nulled — the per-project counts sum to 0, not to the record total 1,
because the N/A sentinel is the missing value and `value_counts` drops
missing cells. -/
theorem C4_cex :
    (pipeline ex4).length = 1 ∧ sumCounts (perProject (pipeline ex4)) = 0 := by decide

/-- C4 (amended): the per-area counts sum to the number of surviving
records with a non-missing area, and the per-project counts sum to the
number of surviving records with a non-missing project — records whose
project was classified N/A (nulled) are excluded from the latter. -/
theorem C4_thm (rows : List Row) :
    sumCounts (perArea (pipeline rows)) =
      ((pipeline rows).filter (fun r => r.area.isSome)).length ∧
    sumCounts (perProject (pipeline rows)) =
      ((pipeline rows).filter (fun r => r.project.isSome)).length := by
  constructor
  · rw [perArea, sumCounts_valueCounts, length_filterMap_eq]
  · rw [perProject, sumCounts_valueCounts, length_filterMap_eq]

/-- C5 (code bug, evaluated): the whitespace-padded placeholder value
` TBC ` is NOT classified as N/A: the strip of line 139 runs only after
`project_cleanup`, so the record survives with project `TBC` although the
program's own header orders the strip before the N/A replacement. -/
theorem C5_thm : (pipeline ex5).map (fun r => r.project) = [some "TBC"] := by decide

/-- C6 (counterexample): for the code `2019-00-01`, which contains the
separator twice, the parsed identifier is only the middle piece `00`, not
the whole remainder `00-01` that split-once semantics would give. -/
theorem C6_cex :
    parseId "2019-00-01" = some "00" ∧ parseId "2019-00-01" ≠ some "00-01" := by decide

/-- C6 (amended): `str.split("-")` is split-ALL; for a code with two or
more separators the year part is the text before the first separator and
the identifier part is exactly the text between the first and second
separators — everything after the second separator is discarded. -/
theorem C6_thm (a b c : List Char) (ha : '-' ∉ a) (hb : '-' ∉ b) :
    parseYr ⟨a ++ '-' :: (b ++ '-' :: c)⟩ = ⟨a⟩ ∧
    parseId ⟨a ++ '-' :: (b ++ '-' :: c)⟩ = some ⟨b⟩ := by
  have h1 : splitDash (a ++ '-' :: (b ++ '-' :: c)) = a :: b :: splitDash c := by
    rw [splitDash_append _ ha, splitDash_append _ hb]
  constructor
  · simp [parseYr, h1]
  · simp [parseId, h1]

/-- C6 (witness): the amended law evaluated on `2019-00-01`. -/
theorem C6_witness : parseYr "2019-00-01" = "2019" ∧ parseId "2019-00-01" = some "00" := by
  have h := C6_thm "2019".data "00".data "01".data (by decide) (by decide)
  have e : (⟨"2019".data ++ '-' :: ("00".data ++ '-' :: "01".data)⟩ : String) = "2019-00-01" := rfl
  rw [e] at h
  exact h

/-- C7: for every compound code containing exactly one separator,
rejoining the parsed year part and identifier part with the separator
reproduces the original code exactly. -/
theorem C7_thm (s : String) (h : s.data.count '-' = 1) :
    parseYr s ++ "-" ++ ((parseId s).getD "") = s ∧ (parseId s).isSome = true := by
  obtain ⟨a, b, hab, ha, hb⟩ := count_one_decomp h
  have h1 : splitDash s.data = [a, b] := by
    rw [hab, splitDash_append _ ha, splitDash_no_dash hb]
  constructor
  · apply String.ext
    simp only [String.data_append, parseYr, parseId, h1]
    simp [hab]
  · simp [parseId, h1]

/-- C7 (witness): the round trip evaluated on `2019-0001`. -/
theorem C7_witness :
    parseYr "2019-0001" ++ "-" ++ ((parseId "2019-0001").getD "") = "2019-0001" ∧
    (parseId "2019-0001").isSome = true :=
  C7_thm "2019-0001" (by decide)

/-- C8: no record that survives the pipeline carries the status literal
`Cancelled` — the filter of line 137 removes them before every aggregate
is computed from the surviving set, and no later rewrite can reintroduce
the literal. -/
theorem C8_thm (rows : List Row) (r : MRec) (hr : r ∈ pipeline rows) :
    r.status ≠ some "Cancelled" := by
  simp only [pipeline, List.mem_map] at hr
  obtain ⟨x2, ⟨x1, ⟨x0, hx0, rfl⟩, rfl⟩, rfl⟩ := hr
  have hst : (splitRow (stripRow (servicesRow x0))).status = x0.status.map servicesStr := rfl
  rw [hst]
  have hne : x0.status ≠ some "Cancelled" := by
    have := (List.mem_filter.mp hx0).2
    simpa [bne_iff_ne] using this
  intro hcon
  cases hs : x0.status with
  | none => rw [hs] at hcon; simp at hcon
  | some s =>
    rw [hs] at hcon
    simp only [Option.map_some', Option.some.injEq] at hcon
    have hsne : s ≠ "Cancelled" := fun e => hne (by rw [hs, e])
    exact servicesStr_ne_cancelled hsne hcon

/-- C8 (witness): the surviving record of `ex8` (whose second row was
cancelled) does not carry the cancelled status. -/
theorem C8_witness :
    (⟨some "2019", some "0001", some "Cyanides", some "CYN1", some "No", some "Active",
        some "5228285"⟩ : MRec).status ≠ some "Cancelled" :=
  C8_thm ex8 _ (by decide)

/-- C9: the `project_cleanup` replacement patterns act on every column,
not only Project — a whole-field value in the Area, Plant or Status
column that matches any of the six patterns is also replaced by the
missing value. -/
theorem C9_thm (r : Row) (s : String) (h : cleanMatch s = true) :
    (cleanRow ⟨r.mod_no, some s, some s, r.temp, some s, r.project⟩).area = none ∧
    (cleanRow ⟨r.mod_no, some s, some s, r.temp, some s, r.project⟩).plant = none ∧
    (cleanRow ⟨r.mod_no, some s, some s, r.temp, some s, r.project⟩).status = none := by
  refine ⟨?_, ?_, ?_⟩ <;> simpa [cleanRow] using cleanCell_of_match h

/-- C9 (witness): a dashes-only value in Area, Plant and Status is nulled
by the cleanup. -/
theorem C9_witness :
    (cleanRow ⟨some "2019-0001", some "---", some "---", some "No", some "---",
        some "5228285"⟩).area = none ∧
    (cleanRow ⟨some "2019-0001", some "---", some "---", some "No", some "---",
        some "5228285"⟩).plant = none ∧
    (cleanRow ⟨some "2019-0001", some "---", some "---", some "No", some "---",
        some "5228285"⟩).status = none :=
  C9_thm ⟨some "2019-0001", some "x", some "x", some "No", some "x", some "5228285"⟩
    "---" (by decide)

/-- C10: the largest-project selection runs on the count table AFTER
entries not strictly above the display threshold were removed: a reported
project always has a count above the threshold, and when every project's
count is at most the threshold the selection operates on an empty table
and errors (pandas ValueError, modelled `none`). -/
theorem C10_thm (recs : List MRec) (t : Nat) :
    ((∀ p ∈ perProject recs, p.2 ≤ t) → largestProject recs t = none) ∧
    (∀ k, largestProject recs t = some k → ∃ c, (k, c) ∈ perProject recs ∧ t < c) := by
  constructor
  · intro h
    have hnil : (perProject recs).filter (fun p => t < p.2) = [] := by
      rw [List.filter_eq_nil_iff]
      intro p hp
      simp [Nat.not_lt.mpr (h p hp)]
    rw [largestProject, hnil]
    rfl
  · intro k hk
    rw [largestProject] at hk
    cases hf : (perProject recs).filter (fun p => t < p.2) with
    | nil => rw [hf] at hk; simp [idxmax] at hk
    | cons q qs =>
      rw [hf] at hk
      simp only [idxmax, Option.some.injEq] at hk
      have hm : idxmaxAux q qs ∈ q :: qs := by
        rcases idxmaxAux_mem q qs with h | h
        · rw [h]; exact List.mem_cons_self _ _
        · exact List.mem_cons_of_mem _ h
      rw [← hf] at hm
      have hmf := List.mem_filter.mp hm
      refine ⟨(idxmaxAux q qs).2, ?_, ?_⟩
      · rw [← hk]
        simpa using hmf.1
      · simpa using hmf.2

/-- C10 (witness): with a single one-modification project and the source
threshold 5, the emptied table yields the error value. -/
theorem C10_witness : largestProject (pipeline ex10) 5 = none :=
  (C10_thm (pipeline ex10) 5).1 (by decide)
